import Mathlib

/-!
Verification of the embeddenator binary envelope format and streaming
compression utilities. Byte sequences are modelled as lists of natural
numbers; machine integers are modelled as naturals with explicit
reduction modulo 2 to the word width where the code truncates. External
compression libraries (zstd, lz4) are modelled as an abstract environment
of fallible byte transformations, since the repository only delegates to
them; all control flow of the repository itself is embedded directly.
-/

instance {ε α : Type} [DecidableEq ε] [DecidableEq α] : DecidableEq (Except ε α) := fun
  | .error a, .error b =>
    if h : a = b then .isTrue (by rw [h])
    else .isFalse (fun hh => h (by cases hh; rfl))
  | .error _, .ok _ => .isFalse (fun hh => Except.noConfusion hh)
  | .ok _, .error _ => .isFalse (fun hh => Except.noConfusion hh)
  | .ok a, .ok b =>
    if h : a = b then .isTrue (by rw [h])
    else .isFalse (fun hh => h (by cases hh; rfl))

/-- Magic constant, the four ASCII bytes of EDN1. -/
def MAGIC : List Nat := [69, 68, 78, 49]

/-- Fixed header length in bytes. -/
def HEADER_LEN : Nat := 16

/-- Payload kinds with their wire tags (1 and 2). -/
inductive PayloadKind where
  | EngramBincode
  | SubEngramBincode
deriving DecidableEq, Repr

/-- The one-byte wire tag of a payload kind, mirroring the repr(u8) discriminants. -/
def PayloadKind.toU8 : PayloadKind → Nat
  | .EngramBincode => 1
  | .SubEngramBincode => 2

/-- Parse a payload kind tag byte, mirroring PayloadKind::from_u8. -/
def PayloadKind.from_u8 (v : Nat) : Option PayloadKind :=
  match v with
  | 1 => some .EngramBincode
  | 2 => some .SubEngramBincode
  | _ => none

/-- Compression codecs with their wire tags (0, 1, 2). -/
inductive CompressionCodec where
  | None
  | Zstd
  | Lz4
deriving DecidableEq, Repr

/-- The one-byte wire tag of a codec, mirroring the repr(u8) discriminants. -/
def CompressionCodec.toU8 : CompressionCodec → Nat
  | .None => 0
  | .Zstd => 1
  | .Lz4 => 2

/-- Parse a codec tag byte, mirroring CompressionCodec::from_u8. -/
def CompressionCodec.from_u8 (v : Nat) : Option CompressionCodec :=
  match v with
  | 0 => some .None
  | 1 => some .Zstd
  | 2 => some .Lz4
  | _ => none

/-- Options for binary writes: a codec and an optional codec-specific level. -/
structure BinaryWriteOptions where
  codec : CompressionCodec
  level : Option Int

/-- Little-endian encoding of a natural as two bytes, mirroring u16::to_le_bytes. -/
def u16le (n : Nat) : List Nat :=
  [n % 256, n / 2 ^ 8 % 256]

/-- Little-endian encoding of a natural as eight bytes, mirroring
u64::to_le_bytes (values at or above 2 to the 64 are truncated, as the
cast to u64 does). -/
def u64le (n : Nat) : List Nat :=
  [n % 256, n / 2 ^ 8 % 256, n / 2 ^ 16 % 256, n / 2 ^ 24 % 256,
   n / 2 ^ 32 % 256, n / 2 ^ 40 % 256, n / 2 ^ 48 % 256, n / 2 ^ 56 % 256]

/-- Little-endian decoding of a byte list, mirroring u64::from_le_bytes
on the eight header bytes. -/
def u64fromLe (bs : List Nat) : Nat :=
  bs.foldr (fun b acc => b + 256 * acc) 0

/-- Abstract environment supplying the external compression libraries.
The repository delegates compression to the zstd and lz4_flex crates;
a build with a feature disabled corresponds to an environment whose
functions always return the configuration error. -/
structure CodecEnv where
  compressZstd : List Nat → Option Int → Except String (List Nat)
  compressLz4 : List Nat → Except String (List Nat)
  decompressZstd : List Nat → Except String (List Nat)
  decompressLz4 : List Nat → Except String (List Nat)

/-- Dispatch compression over the codec, mirroring the private compress function. -/
def compress (env : CodecEnv) (codec : CompressionCodec) (raw : List Nat)
    (level : Option Int) : Except String (List Nat) :=
  match codec with
  | .None => .ok raw
  | .Zstd => env.compressZstd raw level
  | .Lz4 => env.compressLz4 raw

/-- Dispatch decompression over the codec, mirroring the private decompress function. -/
def decompress (env : CodecEnv) (codec : CompressionCodec) (payload : List Nat) :
    Except String (List Nat) :=
  match codec with
  | .None => .ok payload
  | .Zstd => env.decompressZstd payload
  | .Lz4 => env.decompressLz4 payload

/-- Encode a payload into an envelope, mirroring wrap_or_legacy: codec None
is a byte-identical passthrough, otherwise a 16-byte header followed by
the compressed bytes. -/
def wrap_or_legacy (env : CodecEnv) (kind : PayloadKind) (opts : BinaryWriteOptions)
    (raw : List Nat) : Except String (List Nat) :=
  if opts.codec = CompressionCodec.None then
    .ok raw
  else
    match compress env opts.codec raw opts.level with
    | .error e => .error e
    | .ok compressed =>
        .ok (MAGIC ++ [kind.toU8] ++ [opts.codec.toU8] ++ u16le 0 ++
          u64le raw.length ++ compressed)

/-- Decode an envelope, mirroring unwrap_auto: legacy passthrough for short
or unmagicked data, otherwise header validation, decompression, and the
declared-length check. -/
def unwrap_auto (env : CodecEnv) (expected_kind : PayloadKind) (data : List Nat) :
    Except String (List Nat) :=
  if data.length < HEADER_LEN ∨ data.take 4 ≠ MAGIC then
    .ok data
  else
    match PayloadKind.from_u8 (data.getD 4 0) with
    | none => .error "unknown envelope payload kind"
    | some kind =>
      if kind ≠ expected_kind then
        .error "unexpected envelope payload kind"
      else
        match CompressionCodec.from_u8 (data.getD 5 0) with
        | none => .error "unknown envelope compression codec"
        | some codec =>
          let uncompressed_len := u64fromLe ((data.drop 8).take 8)
          let payload := data.drop HEADER_LEN
          match (match codec with
                 | CompressionCodec.None => Except.ok payload
                 | CompressionCodec.Zstd => decompress env codec payload
                 | CompressionCodec.Lz4 => decompress env codec payload) with
          | .error e => .error e
          | .ok decoded =>
            if decoded.length ≠ uncompressed_len then
              .error "envelope size mismatch"
            else
              .ok decoded

/-- An environment whose codecs are all unavailable, as in a build with
both compression features disabled. -/
def disabledEnv : CodecEnv where
  compressZstd := fun _ _ =>
    .error "zstd compression support not enabled (enable feature `compression-zstd`)"
  compressLz4 := fun _ =>
    .error "lz4 compression support not enabled (enable feature `compression-lz4`)"
  decompressZstd := fun _ =>
    .error "zstd decompression support not enabled (enable feature `compression-zstd`)"
  decompressLz4 := fun _ =>
    .error "lz4 decompression support not enabled (enable feature `compression-lz4`)"

/-- An environment whose codecs are the identity transformation; it
satisfies the round-trip contract and is used for concrete witnesses. -/
def identityEnv : CodecEnv where
  compressZstd := fun raw _ => .ok raw
  compressLz4 := fun raw => .ok raw
  decompressZstd := fun payload => .ok payload
  decompressLz4 := fun payload => .ok payload

/-- Replace the declared-length field (bytes 8 to 15) of an envelope. -/
def set_declared_len (d : List Nat) (n : Nat) : List Nat :=
  d.take 8 ++ u64le n ++ d.drop 16

/-- A 16-byte input that is a valid frame (kind 1, codec 0, declared
length 0, empty payload) and is therefore not passed through unchanged. -/
def cexBytes : List Nat :=
  [69, 68, 78, 49, 1, 0, 0, 0, 0, 0, 0, 0, 0, 0, 0, 0]

/-- Compression level selector, mirroring stream_compress.rs CompressionLevel. -/
inductive CompressionLevel where
  | Fast
  | Default
  | Best
  | Custom (level : Int)

/-- Convert to a zstd compression level. -/
def CompressionLevel.to_zstd_level : CompressionLevel → Int
  | .Fast => 1
  | .Default => 3
  | .Best => 19
  | .Custom level => level

/-- Convert to an LZ4 compression level (clamped at zero, as the cast to u32 does). -/
def CompressionLevel.to_lz4_level : CompressionLevel → Nat
  | .Fast => 1
  | .Default => 4
  | .Best => 9
  | .Custom level => (max level 0).toNat

/-- Build-time feature configuration: which codec features are compiled in. -/
structure Features where
  zstd : Bool
  lz4 : Bool

/-- Abstract constructors of the external streaming codec states, carrying
the wrapped writer or reader. The zstd constructors are fallible, matching
the external API; the lz4_flex frame constructors are infallible. -/
structure StreamEnv (W : Type) where
  newZstdEnc : W → Int → Except String W
  newLz4Enc : W → W
  newZstdDec : W → Except String W
  newLz4Dec : W → W

/-- Backing implementation of a streaming compressor. -/
inductive CompressorInner (W : Type) where
  | Zstd (enc : W)
  | Lz4 (enc : W)
  | None (w : W)

/-- Streaming compressor wrapping a writer, mirroring StreamCompressor. -/
structure StreamCompressor (W : Type) where
  inner : CompressorInner W
  codec : CompressionCodec

/-- Passthrough compressor, mirroring StreamCompressor::none. -/
def StreamCompressor.none {W : Type} (writer : W) : StreamCompressor W :=
  ⟨CompressorInner.None writer, CompressionCodec.None⟩

/-- Zstd compressor constructor: the enabled build delegates to the external
encoder constructor, the disabled build is the stub returning the
configuration error. -/
def StreamCompressor.zstd {W : Type} (feat : Features) (env : StreamEnv W) (writer : W)
    (level : CompressionLevel) : Except String (StreamCompressor W) :=
  if feat.zstd then
    match env.newZstdEnc writer level.to_zstd_level with
    | .error e => .error e
    | .ok enc => .ok ⟨CompressorInner.Zstd enc, CompressionCodec.Zstd⟩
  else
    .error "zstd streaming compression requires feature `compression-zstd`"

/-- LZ4 compressor constructor, with the disabled-build stub. -/
def StreamCompressor.lz4 {W : Type} (feat : Features) (env : StreamEnv W) (writer : W)
    (_level : CompressionLevel) : Except String (StreamCompressor W) :=
  if feat.lz4 then
    .ok ⟨CompressorInner.Lz4 (env.newLz4Enc writer), CompressionCodec.Lz4⟩
  else
    .error "lz4 streaming compression requires feature `compression-lz4`"

/-- Codec-dispatching compressor constructor, mirroring
StreamCompressor::with_codec including its inline disabled-feature arms. -/
def StreamCompressor.with_codec {W : Type} (feat : Features) (env : StreamEnv W) (writer : W)
    (codec : CompressionCodec) (level : CompressionLevel) :
    Except String (StreamCompressor W) :=
  match codec with
  | CompressionCodec.None => .ok (StreamCompressor.none writer)
  | CompressionCodec.Zstd =>
    if feat.zstd then
      StreamCompressor.zstd feat env writer level
    else
      .error "zstd streaming compression requires feature `compression-zstd`"
  | CompressionCodec.Lz4 =>
    if feat.lz4 then
      StreamCompressor.lz4 feat env writer level
    else
      .error "lz4 streaming compression requires feature `compression-lz4`"

/-- Backing implementation of a streaming decompressor. -/
inductive DecompressorInner (R : Type) where
  | Zstd (dec : R)
  | Lz4 (dec : R)
  | None (r : R)

/-- Streaming decompressor wrapping a reader, mirroring StreamDecompressor. -/
structure StreamDecompressor (R : Type) where
  inner : DecompressorInner R
  codec : CompressionCodec

/-- Passthrough decompressor, mirroring StreamDecompressor::none. -/
def StreamDecompressor.none {R : Type} (reader : R) : StreamDecompressor R :=
  ⟨DecompressorInner.None reader, CompressionCodec.None⟩

/-- Zstd decompressor constructor, with the disabled-build stub. -/
def StreamDecompressor.zstd {R : Type} (feat : Features) (env : StreamEnv R) (reader : R) :
    Except String (StreamDecompressor R) :=
  if feat.zstd then
    match env.newZstdDec reader with
    | .error e => .error e
    | .ok dec => .ok ⟨DecompressorInner.Zstd dec, CompressionCodec.Zstd⟩
  else
    .error "zstd streaming decompression requires feature `compression-zstd`"

/-- LZ4 decompressor constructor, with the disabled-build stub. -/
def StreamDecompressor.lz4 {R : Type} (feat : Features) (env : StreamEnv R) (reader : R) :
    Except String (StreamDecompressor R) :=
  if feat.lz4 then
    .ok ⟨DecompressorInner.Lz4 (env.newLz4Dec reader), CompressionCodec.Lz4⟩
  else
    .error "lz4 streaming decompression requires feature `compression-lz4`"

/-- Codec-dispatching decompressor constructor, mirroring
StreamDecompressor::with_codec including its inline disabled-feature arms. -/
def StreamDecompressor.with_codec {R : Type} (feat : Features) (env : StreamEnv R) (reader : R)
    (codec : CompressionCodec) : Except String (StreamDecompressor R) :=
  match codec with
  | CompressionCodec.None => .ok (StreamDecompressor.none reader)
  | CompressionCodec.Zstd =>
    if feat.zstd then
      StreamDecompressor.zstd feat env reader
    else
      .error "zstd streaming decompression requires feature `compression-zstd`"
  | CompressionCodec.Lz4 =>
    if feat.lz4 then
      StreamDecompressor.lz4 feat env reader
    else
      .error "lz4 streaming decompression requires feature `compression-lz4`"

/-- The read-and-write loop of stream_compress. The reader is an in-memory
byte source (remaining bytes); each iteration reads at most buffer_size
bytes, breaks on a zero-length read, forwards the chunk to the abstract
compressor state via write_all, and accumulates the byte count in a u64. -/
def scLoop {σ : Type} (write_all : σ → List Nat → Except String σ) (buffer_size : Nat)
    (st : σ) (remaining : List Nat) (total : Nat) : Except String (σ × Nat) :=
  if h : remaining.take buffer_size = [] then
    .ok (st, total)
  else
    match write_all st (remaining.take buffer_size) with
    | .error e => .error e
    | .ok st2 =>
      scLoop write_all buffer_size st2 (remaining.drop buffer_size)
        ((total + (remaining.take buffer_size).length) % 2 ^ 64)
termination_by remaining.length
decreasing_by
  simp only [List.length_drop]
  have hbs : buffer_size ≠ 0 := by
    intro h0
    exact h (by simp [h0])
  have hrem : remaining ≠ [] := by
    intro h0
    exact h (by simp [h0])
  have : remaining.length ≠ 0 := fun h0 => hrem (List.eq_nil_of_length_eq_zero h0)
  omega

/-- Whole-stream compression, mirroring stream_compress: construct the
compressor (mk abstracts StreamCompressor::with_codec and carries its
possible configuration error), run the chunk loop, finish, and return the
accumulated count of bytes read. -/
def stream_compress {σ W : Type} (mk : Except String σ)
    (write_all : σ → List Nat → Except String σ) (finish : σ → Except String W)
    (input : List Nat) (buffer_size : Nat) : Except String Nat :=
  match mk with
  | .error e => .error e
  | .ok c0 =>
    match scLoop write_all buffer_size c0 input 0 with
    | .error e => .error e
    | .ok (c1, total) =>
      match finish c1 with
      | .error e => .error e
      | .ok _ => .ok total

/-- The contract satisfied by any real compression library: decompression
inverts a successful compression. An enabled build of zstd or lz4_flex
provides this; it is the only fact about the external codecs the
round-trip property needs. -/
def CodecEnv.RoundTrip (env : CodecEnv) : Prop :=
  (∀ raw level compressed, env.compressZstd raw level = .ok compressed →
    env.decompressZstd compressed = .ok raw) ∧
  (∀ raw compressed, env.compressLz4 raw = .ok compressed →
    env.decompressLz4 compressed = .ok raw)

/-- The kind tag round-trips through its parser. -/
theorem kind_tag_roundtrip (k : PayloadKind) : PayloadKind.from_u8 k.toU8 = some k := by
  cases k <;> rfl

/-- The codec tag round-trips through its parser. -/
theorem codec_tag_roundtrip (c : CompressionCodec) :
    CompressionCodec.from_u8 c.toU8 = some c := by
  cases c <;> rfl

/-- A byte that is neither 1 nor 2 parses to no payload kind. -/
theorem kind_tag_unknown {v : Nat} (h1 : v ≠ 1) (h2 : v ≠ 2) :
    PayloadKind.from_u8 v = none := by
  match v, h1, h2 with
  | 0, _, _ => rfl
  | 1, h1, _ => exact absurd rfl h1
  | 2, _, h2 => exact absurd rfl h2
  | n + 3, _, _ => rfl

/-- A byte that is neither 0, 1 nor 2 parses to no codec. -/
theorem codec_tag_unknown {v : Nat} (h0 : v ≠ 0) (h1 : v ≠ 1) (h2 : v ≠ 2) :
    CompressionCodec.from_u8 v = none := by
  match v, h0, h1, h2 with
  | 0, h0, _, _ => exact absurd rfl h0
  | 1, _, h1, _ => exact absurd rfl h1
  | 2, _, _, h2 => exact absurd rfl h2
  | n + 3, _, _, _ => rfl

/-- Decoding the little-endian encoding recovers the value modulo 2 to the 64. -/
theorem u64fromLe_u64le (n : Nat) : u64fromLe (u64le n) = n % 2 ^ 64 := by
  simp only [u64le, u64fromLe, List.foldr]
  omega

/-- The little-endian encoding is eight bytes long. -/
theorem u64le_length (n : Nat) : (u64le n).length = 8 := rfl

/-- Any list of length at least eight starts with eight explicit elements. -/
theorem exists_cons8 (d : List Nat) (h : 8 ≤ d.length) :
    ∃ a0 a1 a2 a3 a4 a5 a6 a7 rest,
      d = a0 :: a1 :: a2 :: a3 :: a4 :: a5 :: a6 :: a7 :: rest := by
  rcases d with _ | ⟨a0, _ | ⟨a1, _ | ⟨a2, _ | ⟨a3, _ | ⟨a4, _ | ⟨a5, _ | ⟨a6, _ | ⟨a7, rest⟩⟩⟩⟩⟩⟩⟩⟩ <;>
    first
      | exact ⟨_, _, _, _, _, _, _, _, _, rfl⟩
      | (simp only [List.length_cons, List.length_nil] at h; omega)

/-- Decoding a well-formed frame reduces to the header-validation chain;
the guard never fires and the four header fields are read at their offsets. -/
theorem unwrap_auto_framed (env : CodecEnv) (expected : PayloadKind)
    (kb cb r0 r1 : Nat) (lenB payload : List Nat) (h8 : lenB.length = 8) :
    unwrap_auto env expected (MAGIC ++ kb :: cb :: r0 :: r1 :: (lenB ++ payload)) =
      match PayloadKind.from_u8 kb with
      | none => .error "unknown envelope payload kind"
      | some kind =>
        if kind ≠ expected then
          .error "unexpected envelope payload kind"
        else
          match CompressionCodec.from_u8 cb with
          | none => .error "unknown envelope compression codec"
          | some codec =>
            match (match codec with
                   | CompressionCodec.None => Except.ok payload
                   | CompressionCodec.Zstd => decompress env codec payload
                   | CompressionCodec.Lz4 => decompress env codec payload) with
            | .error e => .error e
            | .ok decoded =>
              if decoded.length ≠ u64fromLe lenB then
                .error "envelope size mismatch"
              else
                .ok decoded := by
  have h1 : ((MAGIC ++ kb :: cb :: r0 :: r1 :: (lenB ++ payload)).drop 8).take 8 = lenB := by
    have hd : (MAGIC ++ kb :: cb :: r0 :: r1 :: (lenB ++ payload)).drop 8 = lenB ++ payload := rfl
    rw [hd, ← h8, List.take_left]
  have h2 : (MAGIC ++ kb :: cb :: r0 :: r1 :: (lenB ++ payload)).drop HEADER_LEN = payload := by
    have hd : (MAGIC ++ kb :: cb :: r0 :: r1 :: (lenB ++ payload)).drop HEADER_LEN =
        (lenB ++ payload).drop 8 := rfl
    rw [hd, ← h8, List.drop_left]
  have hguard : ¬((MAGIC ++ kb :: cb :: r0 :: r1 :: (lenB ++ payload)).length < HEADER_LEN ∨
      (MAGIC ++ kb :: cb :: r0 :: r1 :: (lenB ++ payload)).take 4 ≠ MAGIC) := by
    rw [not_or]
    constructor
    · simp only [MAGIC, HEADER_LEN, List.length_append, List.length_cons, List.length_nil]
      omega
    · exact fun hne => hne rfl
  unfold unwrap_auto
  rw [if_neg hguard]
  simp only [h1, h2]
  rfl

/-- Specialization of the framed-decode lemma to a header whose kind and
codec bytes are the tags of known variants. -/
theorem unwrap_auto_framed_parsed (env : CodecEnv) (expected : PayloadKind)
    (k : PayloadKind) (c : CompressionCodec) (lenB payload : List Nat)
    (h8 : lenB.length = 8) :
    unwrap_auto env expected (MAGIC ++ k.toU8 :: c.toU8 :: 0 :: 0 :: (lenB ++ payload)) =
      if k ≠ expected then
        .error "unexpected envelope payload kind"
      else
        match (match c with
               | CompressionCodec.None => Except.ok payload
               | CompressionCodec.Zstd => decompress env c payload
               | CompressionCodec.Lz4 => decompress env c payload) with
        | .error e => .error e
        | .ok decoded =>
          if decoded.length ≠ u64fromLe lenB then
            .error "envelope size mismatch"
          else
            .ok decoded := by
  rw [unwrap_auto_framed env expected k.toU8 c.toU8 0 0 lenB payload h8,
    kind_tag_roundtrip, codec_tag_roundtrip]

/-- Decoding data that is short or not magic-prefixed is a passthrough. -/
theorem unwrap_auto_legacy (env : CodecEnv) (kind : PayloadKind) (b : List Nat)
    (h : b.length < 16 ∨ b.take 4 ≠ MAGIC) :
    unwrap_auto env kind b = .ok b := by
  unfold unwrap_auto
  rw [if_pos (by simpa only [HEADER_LEN] using h)]

/-- A successful non-passthrough encode is the header followed by the
output of the compressor. -/
theorem wrap_or_legacy_ok_shape (env : CodecEnv) (kind : PayloadKind)
    (opts : BinaryWriteOptions) (raw out : List Nat)
    (hc : opts.codec ≠ CompressionCodec.None)
    (hok : wrap_or_legacy env kind opts raw = .ok out) :
    ∃ compressed, compress env opts.codec raw opts.level = .ok compressed ∧
      out = MAGIC ++ kind.toU8 :: opts.codec.toU8 :: 0 :: 0 ::
        (u64le raw.length ++ compressed) := by
  unfold wrap_or_legacy at hok
  rw [if_neg hc] at hok
  cases hcomp : compress env opts.codec raw opts.level with
  | error e => rw [hcomp] at hok; cases hok
  | ok compressed =>
    rw [hcomp] at hok
    refine ⟨compressed, rfl, ?_⟩
    cases hok
    rfl

example : unwrap_auto disabledEnv PayloadKind.EngramBincode [1, 2, 3] = .ok [1, 2, 3] := by
  decide

example :
    unwrap_auto disabledEnv PayloadKind.EngramBincode
      [69, 68, 78, 49, 1, 0, 0, 0, 0, 0, 0, 0, 0, 0, 0, 0] = .ok [] := by
  rfl

example :
    wrap_or_legacy identityEnv PayloadKind.EngramBincode ⟨CompressionCodec.Zstd, some 3⟩
      [7, 7] = .ok ([69, 68, 78, 49, 1, 1, 0, 0, 2, 0, 0, 0, 0, 0, 0, 0, 7, 7]) := by
  rfl

/-- Claim C2: for every byte sequence shorter than 16 bytes or whose first
four bytes differ from the magic, and for every expected kind, decoding
succeeds and returns the input unchanged. -/
theorem C2_legacy_passthrough (env : CodecEnv) (kind : PayloadKind) (b : List Nat)
    (h : b.length < 16 ∨ b.take 4 ≠ MAGIC) :
    unwrap_auto env kind b = .ok b :=
  unwrap_auto_legacy env kind b h

theorem C2_legacy_passthrough_witness :
    unwrap_auto disabledEnv PayloadKind.SubEngramBincode [9, 9, 9] = .ok [9, 9, 9] :=
  C2_legacy_passthrough disabledEnv PayloadKind.SubEngramBincode [9, 9, 9]
    (Or.inl (by decide))

/-- Claim C1 counterexample: a 16-byte input that itself starts with the
magic encodes to itself under codec None, but decoding the encoded bytes
is parsed as a frame and returns the empty payload, not the input. -/
theorem C1_counterexample :
    wrap_or_legacy disabledEnv PayloadKind.EngramBincode
      ⟨CompressionCodec.None, Option.none⟩ cexBytes = .ok cexBytes ∧
    unwrap_auto disabledEnv PayloadKind.EngramBincode cexBytes ≠ .ok cexBytes := by
  constructor
  · rfl
  · intro h
    have : ([] : List Nat) = cexBytes := by
      have heval : unwrap_auto disabledEnv PayloadKind.EngramBincode cexBytes = .ok [] := rfl
      rw [heval] at h
      exact Except.ok.inj h
    exact absurd this.symm (by decide)

/-- Claim C1 (amended): for every payload kind, optional level, and byte
sequence b, encoding with codec None succeeds and returns b byte-identically;
and for every such b that is legacy-shaped (shorter than 16 bytes or not
magic-prefixed) decoding the encoded bytes returns b. -/
theorem C1_roundtrip_none (env : CodecEnv) (kind : PayloadKind) (level : Option Int)
    (b : List Nat) :
    wrap_or_legacy env kind ⟨CompressionCodec.None, level⟩ b = .ok b ∧
    (b.length < 16 ∨ b.take 4 ≠ MAGIC → unwrap_auto env kind b = .ok b) := by
  constructor
  · unfold wrap_or_legacy
    rw [if_pos rfl]
  · exact unwrap_auto_legacy env kind b

theorem C1_roundtrip_none_witness :
    wrap_or_legacy disabledEnv PayloadKind.SubEngramBincode
      ⟨CompressionCodec.None, Option.none⟩ [5, 6] = .ok [5, 6] ∧
    unwrap_auto disabledEnv PayloadKind.SubEngramBincode [5, 6] = .ok [5, 6] :=
  ⟨(C1_roundtrip_none disabledEnv PayloadKind.SubEngramBincode Option.none [5, 6]).1,
   (C1_roundtrip_none disabledEnv PayloadKind.SubEngramBincode Option.none [5, 6]).2
     (Or.inl (by decide))⟩

/-- Claim C3: every successful non-None encode emits exactly the magic,
the kind tag, the codec tag, two zero reserved bytes, the uncompressed
length of the raw input as a little-endian 64-bit integer, and the
compressed payload. -/
theorem C3_header_layout (env : CodecEnv) (kind : PayloadKind)
    (opts : BinaryWriteOptions) (raw out : List Nat)
    (hc : opts.codec ≠ CompressionCodec.None)
    (hok : wrap_or_legacy env kind opts raw = .ok out) :
    ∃ compressed, compress env opts.codec raw opts.level = .ok compressed ∧
      out = MAGIC ++ [kind.toU8, opts.codec.toU8, 0, 0] ++ u64le raw.length ++ compressed := by
  obtain ⟨compressed, hcomp, hout⟩ := wrap_or_legacy_ok_shape env kind opts raw out hc hok
  exact ⟨compressed, hcomp, by rw [hout]; simp [MAGIC]⟩

theorem C3_header_layout_witness :
    ∃ compressed,
      compress identityEnv CompressionCodec.Zstd [7, 7] (some 3) = .ok compressed ∧
      [69, 68, 78, 49, 1, 1, 0, 0, 2, 0, 0, 0, 0, 0, 0, 0, 7, 7] =
        MAGIC ++ [PayloadKind.EngramBincode.toU8, CompressionCodec.Zstd.toU8, 0, 0] ++
          u64le (List.length [7, 7]) ++ compressed :=
  C3_header_layout identityEnv PayloadKind.EngramBincode
    ⟨CompressionCodec.Zstd, some 3⟩ [7, 7]
    [69, 68, 78, 49, 1, 1, 0, 0, 2, 0, 0, 0, 0, 0, 0, 0, 7, 7]
    (by decide) rfl

/-- Claim C5: decoding an envelope that was encoded under a different kind
with a non-None codec fails with the unexpected-payload-kind error. -/
theorem C5_kind_mismatch (env : CodecEnv) (kind1 kind2 : PayloadKind)
    (opts : BinaryWriteOptions) (b out : List Nat)
    (hk : kind1 ≠ kind2) (hc : opts.codec ≠ CompressionCodec.None)
    (hok : wrap_or_legacy env kind1 opts b = .ok out) :
    unwrap_auto env kind2 out = .error "unexpected envelope payload kind" := by
  obtain ⟨compressed, _, hout⟩ := wrap_or_legacy_ok_shape env kind1 opts b out hc hok
  subst hout
  rw [unwrap_auto_framed env kind2 kind1.toU8 opts.codec.toU8 0 0
    (u64le b.length) compressed (u64le_length b.length)]
  rw [kind_tag_roundtrip]
  simp only [ne_eq, ite_not]
  rw [if_neg hk]

theorem C5_kind_mismatch_witness :
    unwrap_auto identityEnv PayloadKind.SubEngramBincode
      [69, 68, 78, 49, 1, 1, 0, 0, 2, 0, 0, 0, 0, 0, 0, 0, 7, 7] =
      .error "unexpected envelope payload kind" :=
  C5_kind_mismatch identityEnv PayloadKind.EngramBincode PayloadKind.SubEngramBincode
    ⟨CompressionCodec.Zstd, some 3⟩ [7, 7]
    [69, 68, 78, 49, 1, 1, 0, 0, 2, 0, 0, 0, 0, 0, 0, 0, 7, 7]
    (by decide) (by decide) rfl

/-- The identity environment satisfies the codec round-trip contract. -/
theorem identityEnv_roundTrip : identityEnv.RoundTrip :=
  ⟨fun _raw _level _compressed h => by cases h; rfl,
   fun _raw _compressed h => by cases h; rfl⟩

/-- Claim C7: for any codec environment satisfying the external round-trip
contract, any kind, any non-None codec options, and any byte sequence b of
representable length, a successful encode followed by a decode under the
same kind returns b. -/
theorem C7_roundtrip_compressed (env : CodecEnv) (kind : PayloadKind)
    (opts : BinaryWriteOptions) (b out : List Nat)
    (hrt : env.RoundTrip) (hc : opts.codec ≠ CompressionCodec.None)
    (hlen : b.length < 2 ^ 64)
    (hok : wrap_or_legacy env kind opts b = .ok out) :
    unwrap_auto env kind out = .ok b := by
  obtain ⟨compressed, hcomp, hout⟩ := wrap_or_legacy_ok_shape env kind opts b out hc hok
  subst hout
  rw [unwrap_auto_framed_parsed env kind kind opts.codec
    (u64le b.length) compressed (u64le_length b.length)]
  rw [if_neg (fun h : kind ≠ kind => h rfl)]
  have hnn : ¬(b.length ≠ u64fromLe (u64le b.length)) := by
    rw [u64fromLe_u64le, Nat.mod_eq_of_lt hlen]
    exact fun h => h rfl
  cases hcd : opts.codec with
  | None => exact absurd hcd hc
  | Zstd =>
    rw [hcd] at hcomp
    have hz : env.decompressZstd compressed = .ok b :=
      hrt.1 b opts.level compressed hcomp
    show (match decompress env CompressionCodec.Zstd compressed with
          | Except.error e => Except.error e
          | Except.ok decoded =>
            if decoded.length ≠ u64fromLe (u64le b.length) then
              Except.error "envelope size mismatch"
            else Except.ok decoded) = Except.ok b
    unfold decompress
    rw [hz]
    exact if_neg hnn
  | Lz4 =>
    rw [hcd] at hcomp
    have hz : env.decompressLz4 compressed = .ok b :=
      hrt.2 b compressed hcomp
    show (match decompress env CompressionCodec.Lz4 compressed with
          | Except.error e => Except.error e
          | Except.ok decoded =>
            if decoded.length ≠ u64fromLe (u64le b.length) then
              Except.error "envelope size mismatch"
            else Except.ok decoded) = Except.ok b
    unfold decompress
    rw [hz]
    exact if_neg hnn

theorem C7_roundtrip_compressed_witness :
    unwrap_auto identityEnv PayloadKind.EngramBincode
      [69, 68, 78, 49, 1, 2, 0, 0, 3, 0, 0, 0, 0, 0, 0, 0, 4, 5, 6] = .ok [4, 5, 6] :=
  C7_roundtrip_compressed identityEnv PayloadKind.EngramBincode
    ⟨CompressionCodec.Lz4, Option.none⟩ [4, 5, 6]
    [69, 68, 78, 49, 1, 2, 0, 0, 3, 0, 0, 0, 0, 0, 0, 0, 4, 5, 6]
    identityEnv_roundTrip (by decide) (by decide) rfl

/-- Any input of length at least 16 starting with the magic decomposes into
the magic, four header bytes, eight declared-length bytes, and a payload. -/
theorem exists_header_shape (d : List Nat) (h16 : 16 ≤ d.length)
    (hmagic : d.take 4 = MAGIC) :
    ∃ kb cb r0 r1 b0 b1 b2 b3 b4 b5 b6 b7 payload,
      d = MAGIC ++ kb :: cb :: r0 :: r1 ::
        (([b0, b1, b2, b3, b4, b5, b6, b7] : List Nat) ++ payload) := by
  obtain ⟨a0, a1, a2, a3, a4, a5, a6, a7, rest, hd⟩ :=
    exists_cons8 d (le_trans (by norm_num) h16)
  have hrest : 8 ≤ rest.length := by
    subst hd
    simp only [List.length_cons] at h16
    omega
  obtain ⟨b0, b1, b2, b3, b4, b5, b6, b7, rest2, hr⟩ := exists_cons8 rest hrest
  subst hr
  subst hd
  have hm : ([a0, a1, a2, a3] : List Nat) = MAGIC := hmagic
  simp only [MAGIC, List.cons.injEq, and_true] at hm
  obtain ⟨h0, h1, h2, h3⟩ := hm
  subst h0; subst h1; subst h2; subst h3
  exact ⟨a4, a5, a6, a7, b0, b1, b2, b3, b4, b5, b6, b7, rest2, rfl⟩

/-- The inline codec dispatch in unwrap_auto agrees with decompress on
every codec (the None arm of decompress is also the identity). -/
theorem match_decode_eq_decompress (env : CodecEnv) (codec : CompressionCodec)
    (payload : List Nat) :
    (match codec with
     | CompressionCodec.None => Except.ok payload
     | CompressionCodec.Zstd => decompress env codec payload
     | CompressionCodec.Lz4 => decompress env codec payload) =
    decompress env codec payload := by
  cases codec <;> rfl

/-- Claim C9: decoding ignores the reserved bytes at offsets 6 and 7; two
magic-prefixed inputs of length at least 16 differing only there decode to
the same result. -/
theorem C9_reserved_ignored (env : CodecEnv) (kind : PayloadKind) (d : List Nat)
    (x y : Nat) (h16 : 16 ≤ d.length) (hmagic : d.take 4 = MAGIC) :
    unwrap_auto env kind (d.take 6 ++ [x, y] ++ d.drop 8) = unwrap_auto env kind d := by
  obtain ⟨kb, cb, r0, r1, b0, b1, b2, b3, b4, b5, b6, b7, payload, hd⟩ :=
    exists_header_shape d h16 hmagic
  subst hd
  have hmut : (MAGIC ++ kb :: cb :: r0 :: r1 ::
        (([b0, b1, b2, b3, b4, b5, b6, b7] : List Nat) ++ payload)).take 6 ++ [x, y] ++
      (MAGIC ++ kb :: cb :: r0 :: r1 ::
        (([b0, b1, b2, b3, b4, b5, b6, b7] : List Nat) ++ payload)).drop 8 =
      MAGIC ++ kb :: cb :: x :: y ::
        (([b0, b1, b2, b3, b4, b5, b6, b7] : List Nat) ++ payload) := rfl
  rw [hmut]
  rw [unwrap_auto_framed env kind kb cb x y [b0, b1, b2, b3, b4, b5, b6, b7] payload rfl]
  rw [unwrap_auto_framed env kind kb cb r0 r1 [b0, b1, b2, b3, b4, b5, b6, b7] payload rfl]

theorem C9_reserved_ignored_witness :
    unwrap_auto disabledEnv PayloadKind.EngramBincode
      (cexBytes.take 6 ++ [255, 254] ++ cexBytes.drop 8) =
      unwrap_auto disabledEnv PayloadKind.EngramBincode cexBytes :=
  C9_reserved_ignored disabledEnv PayloadKind.EngramBincode cexBytes 255 254
    (by decide) (by decide)

/-- Claim C6: on a magic-prefixed input of length at least 16, an unknown
kind tag at byte 4 yields the unknown-payload-kind error, and a known kind
tag matching the expected kind followed by an unknown codec tag at byte 5
yields the unknown-compression-codec error. -/
theorem C6_unknown_tags :
    (∀ (env : CodecEnv) (expected : PayloadKind) (d : List Nat),
      16 ≤ d.length → d.take 4 = MAGIC →
      d.getD 4 0 ≠ 1 → d.getD 4 0 ≠ 2 →
      unwrap_auto env expected d = .error "unknown envelope payload kind") ∧
    (∀ (env : CodecEnv) (expected : PayloadKind) (d : List Nat),
      16 ≤ d.length → d.take 4 = MAGIC →
      d.getD 4 0 = expected.toU8 →
      d.getD 5 0 ≠ 0 → d.getD 5 0 ≠ 1 → d.getD 5 0 ≠ 2 →
      unwrap_auto env expected d = .error "unknown envelope compression codec") := by
  constructor
  · intro env expected d h16 hmagic h1 h2
    obtain ⟨kb, cb, r0, r1, b0, b1, b2, b3, b4, b5, b6, b7, payload, hd⟩ :=
      exists_header_shape d h16 hmagic
    subst hd
    have h1' : kb ≠ 1 := h1
    have h2' : kb ≠ 2 := h2
    rw [unwrap_auto_framed env expected kb cb r0 r1 [b0, b1, b2, b3, b4, b5, b6, b7]
      payload rfl]
    rw [kind_tag_unknown h1' h2']
  · intro env expected d h16 hmagic hk h0 h1 h2
    obtain ⟨kb, cb, r0, r1, b0, b1, b2, b3, b4, b5, b6, b7, payload, hd⟩ :=
      exists_header_shape d h16 hmagic
    subst hd
    have hk' : kb = expected.toU8 := hk
    have h0' : cb ≠ 0 := h0
    have h1' : cb ≠ 1 := h1
    have h2' : cb ≠ 2 := h2
    subst hk'
    rw [unwrap_auto_framed env expected expected.toU8 cb r0 r1
      [b0, b1, b2, b3, b4, b5, b6, b7] payload rfl]
    rw [kind_tag_roundtrip, codec_tag_unknown h0' h1' h2']
    simp only [ne_eq, ite_not]
    exact if_pos trivial

theorem C6_unknown_tags_witness :
    unwrap_auto disabledEnv PayloadKind.EngramBincode
      [69, 68, 78, 49, 9, 0, 0, 0, 0, 0, 0, 0, 0, 0, 0, 0] =
      .error "unknown envelope payload kind" ∧
    unwrap_auto disabledEnv PayloadKind.EngramBincode
      [69, 68, 78, 49, 1, 9, 0, 0, 0, 0, 0, 0, 0, 0, 0, 0] =
      .error "unknown envelope compression codec" :=
  ⟨C6_unknown_tags.1 disabledEnv PayloadKind.EngramBincode
      [69, 68, 78, 49, 9, 0, 0, 0, 0, 0, 0, 0, 0, 0, 0, 0]
      (by decide) (by decide) (by decide) (by decide),
   C6_unknown_tags.2 disabledEnv PayloadKind.EngramBincode
      [69, 68, 78, 49, 1, 9, 0, 0, 0, 0, 0, 0, 0, 0, 0, 0]
      (by decide) (by decide) (by decide) (by decide) (by decide) (by decide)⟩

/-- Claim C4: on a framed input whose header parses to the expected kind
and a known codec and whose payload decompresses, a decompressed length
differing from the declared length yields the size-mismatch error; and
overwriting the declared-length field of any successfully decoded framed
envelope with a wrong value makes decoding fail with that error. -/
theorem C4_size_mismatch :
    (∀ (env : CodecEnv) (expected : PayloadKind) (codec : CompressionCodec)
       (d decoded : List Nat),
      16 ≤ d.length → d.take 4 = MAGIC →
      d.getD 4 0 = expected.toU8 →
      CompressionCodec.from_u8 (d.getD 5 0) = some codec →
      decompress env codec (d.drop 16) = .ok decoded →
      decoded.length ≠ u64fromLe ((d.drop 8).take 8) →
      unwrap_auto env expected d = .error "envelope size mismatch") ∧
    (∀ (env : CodecEnv) (expected : PayloadKind) (d out : List Nat) (n : Nat),
      unwrap_auto env expected d = .ok out →
      16 ≤ d.length → d.take 4 = MAGIC →
      n < 2 ^ 64 → n ≠ out.length →
      unwrap_auto env expected (set_declared_len d n) =
        .error "envelope size mismatch") := by
  constructor
  · intro env expected codec d decoded h16 hmagic hk hcodec hdec hsize
    obtain ⟨kb, cb, r0, r1, b0, b1, b2, b3, b4, b5, b6, b7, payload, hd⟩ :=
      exists_header_shape d h16 hmagic
    subst hd
    have hk' : kb = expected.toU8 := hk
    subst hk'
    have hcd : CompressionCodec.from_u8 cb = some codec := hcodec
    have hdec' : decompress env codec payload = .ok decoded := hdec
    have hsz : ¬(decoded.length =
        u64fromLe ([b0, b1, b2, b3, b4, b5, b6, b7] : List Nat)) := hsize
    rw [unwrap_auto_framed env expected expected.toU8 cb r0 r1
      [b0, b1, b2, b3, b4, b5, b6, b7] payload rfl]
    cases codec with
    | None =>
      have hpd : payload = decoded := Except.ok.inj hdec'
      subst hpd
      simp only [kind_tag_roundtrip, hcd, ne_eq, ite_not, eq_self_iff_true, if_true]
      exact if_neg hsz
    | Zstd =>
      simp only [kind_tag_roundtrip, hcd, hdec', ne_eq, ite_not,
        eq_self_iff_true, if_true]
      exact if_neg hsz
    | Lz4 =>
      simp only [kind_tag_roundtrip, hcd, hdec', ne_eq, ite_not,
        eq_self_iff_true, if_true]
      exact if_neg hsz
  · intro env expected d out n hok h16 hmagic hn hne
    obtain ⟨kb, cb, r0, r1, b0, b1, b2, b3, b4, b5, b6, b7, payload, hd⟩ :=
      exists_header_shape d h16 hmagic
    subst hd
    rw [unwrap_auto_framed env expected kb cb r0 r1
      [b0, b1, b2, b3, b4, b5, b6, b7] payload rfl] at hok
    have hset : set_declared_len (MAGIC ++ kb :: cb :: r0 :: r1 ::
        (([b0, b1, b2, b3, b4, b5, b6, b7] : List Nat) ++ payload)) n =
        MAGIC ++ kb :: cb :: r0 :: r1 :: (u64le n ++ payload) := rfl
    rw [hset, unwrap_auto_framed env expected kb cb r0 r1 (u64le n) payload
      (u64le_length n)]
    cases hpk : PayloadKind.from_u8 kb with
    | none =>
      rw [hpk] at hok
      exact Except.noConfusion hok
    | some kind =>
      cases hcd : CompressionCodec.from_u8 cb with
      | none =>
        simp only [hpk, hcd, ne_eq, ite_not] at hok
        by_cases hke : kind = expected
        · rw [if_pos hke] at hok
          exact Except.noConfusion hok
        · rw [if_neg hke] at hok
          exact Except.noConfusion hok
      | some codec =>
        cases codec with
        | None =>
          simp only [hpk, hcd, ne_eq, ite_not] at hok
          by_cases hke : kind = expected
          · rw [if_pos hke] at hok
            subst hke
            by_cases hsz : payload.length =
                u64fromLe ([b0, b1, b2, b3, b4, b5, b6, b7] : List Nat)
            · rw [if_pos hsz] at hok
              have hout : payload = out := Except.ok.inj hok
              subst hout
              simp only [hpk, hcd, ne_eq, ite_not, eq_self_iff_true, if_true,
                u64fromLe_u64le, Nat.mod_eq_of_lt hn]
              exact if_neg (fun h => hne h.symm)
            · rw [if_neg hsz] at hok
              exact Except.noConfusion hok
          · rw [if_neg hke] at hok
            exact Except.noConfusion hok
        | Zstd =>
          simp only [hpk, hcd, ne_eq, ite_not] at hok
          by_cases hke : kind = expected
          · rw [if_pos hke] at hok
            subst hke
            cases hdec : decompress env CompressionCodec.Zstd payload with
            | error e =>
              simp only [hdec] at hok
              exact Except.noConfusion hok
            | ok decoded =>
              simp only [hdec] at hok
              by_cases hsz : decoded.length =
                  u64fromLe ([b0, b1, b2, b3, b4, b5, b6, b7] : List Nat)
              · rw [if_pos hsz] at hok
                have hout : decoded = out := Except.ok.inj hok
                subst hout
                simp only [hpk, hcd, hdec, ne_eq, ite_not, eq_self_iff_true, if_true,
                  u64fromLe_u64le, Nat.mod_eq_of_lt hn]
                exact if_neg (fun h => hne h.symm)
              · rw [if_neg hsz] at hok
                exact Except.noConfusion hok
          · rw [if_neg hke] at hok
            exact Except.noConfusion hok
        | Lz4 =>
          simp only [hpk, hcd, ne_eq, ite_not] at hok
          by_cases hke : kind = expected
          · rw [if_pos hke] at hok
            subst hke
            cases hdec : decompress env CompressionCodec.Lz4 payload with
            | error e =>
              simp only [hdec] at hok
              exact Except.noConfusion hok
            | ok decoded =>
              simp only [hdec] at hok
              by_cases hsz : decoded.length =
                  u64fromLe ([b0, b1, b2, b3, b4, b5, b6, b7] : List Nat)
              · rw [if_pos hsz] at hok
                have hout : decoded = out := Except.ok.inj hok
                subst hout
                simp only [hpk, hcd, hdec, ne_eq, ite_not, eq_self_iff_true, if_true,
                  u64fromLe_u64le, Nat.mod_eq_of_lt hn]
                exact if_neg (fun h => hne h.symm)
              · rw [if_neg hsz] at hok
                exact Except.noConfusion hok
          · rw [if_neg hke] at hok
            exact Except.noConfusion hok

theorem C4_size_mismatch_witness :
    unwrap_auto disabledEnv PayloadKind.EngramBincode
      [69, 68, 78, 49, 1, 0, 0, 0, 5, 0, 0, 0, 0, 0, 0, 0] =
      .error "envelope size mismatch" ∧
    unwrap_auto disabledEnv PayloadKind.EngramBincode (set_declared_len cexBytes 1) =
      .error "envelope size mismatch" :=
  ⟨C4_size_mismatch.1 disabledEnv PayloadKind.EngramBincode CompressionCodec.None
      [69, 68, 78, 49, 1, 0, 0, 0, 5, 0, 0, 0, 0, 0, 0, 0] []
      (by decide) (by decide) (by decide) (by decide) rfl (by decide),
   C4_size_mismatch.2 disabledEnv PayloadKind.EngramBincode cexBytes [] 1
      rfl (by decide) (by decide) (by decide) (by decide)⟩

/-- Claim C8: constructing a streaming compressor or decompressor with
codec None always succeeds, and constructing one for a codec whose feature
is not compiled in fails with the descriptive configuration error, for
every build configuration and every external-constructor behavior (so no
silent substitution of the None codec is possible). -/
theorem C8_codec_selection {W R : Type} (feat : Features) (envW : StreamEnv W)
    (envR : StreamEnv R) (writer : W) (reader : R) (level : CompressionLevel) :
    (StreamCompressor.with_codec feat envW writer CompressionCodec.None level =
      .ok (StreamCompressor.none writer)) ∧
    (feat.zstd = false →
      StreamCompressor.with_codec feat envW writer CompressionCodec.Zstd level =
        .error "zstd streaming compression requires feature `compression-zstd`") ∧
    (feat.lz4 = false →
      StreamCompressor.with_codec feat envW writer CompressionCodec.Lz4 level =
        .error "lz4 streaming compression requires feature `compression-lz4`") ∧
    (StreamDecompressor.with_codec feat envR reader CompressionCodec.None =
      .ok (StreamDecompressor.none reader)) ∧
    (feat.zstd = false →
      StreamDecompressor.with_codec feat envR reader CompressionCodec.Zstd =
        .error "zstd streaming decompression requires feature `compression-zstd`") ∧
    (feat.lz4 = false →
      StreamDecompressor.with_codec feat envR reader CompressionCodec.Lz4 =
        .error "lz4 streaming decompression requires feature `compression-lz4`") := by
  refine ⟨rfl, fun h => ?_, fun h => ?_, rfl, fun h => ?_, fun h => ?_⟩ <;>
    simp [StreamCompressor.with_codec, StreamDecompressor.with_codec, h]

theorem C8_codec_selection_witness :
    (StreamCompressor.with_codec ⟨false, false⟩
      ⟨fun _ _ => .ok (), fun _ => (), fun _ => .ok (), fun _ => ()⟩ ()
      CompressionCodec.None CompressionLevel.Default =
      .ok (StreamCompressor.none ())) ∧
    (StreamCompressor.with_codec ⟨false, false⟩
      ⟨fun _ _ => .ok (), fun _ => (), fun _ => .ok (), fun _ => ()⟩ ()
      CompressionCodec.Zstd CompressionLevel.Default =
      .error "zstd streaming compression requires feature `compression-zstd`") ∧
    (StreamCompressor.with_codec ⟨false, false⟩
      ⟨fun _ _ => .ok (), fun _ => (), fun _ => .ok (), fun _ => ()⟩ ()
      CompressionCodec.Lz4 CompressionLevel.Default =
      .error "lz4 streaming compression requires feature `compression-lz4`") ∧
    (StreamDecompressor.with_codec ⟨false, false⟩
      ⟨fun _ _ => .ok (), fun _ => (), fun _ => .ok (), fun _ => ()⟩ ()
      CompressionCodec.None =
      .ok (StreamDecompressor.none ())) ∧
    (StreamDecompressor.with_codec ⟨false, false⟩
      ⟨fun _ _ => .ok (), fun _ => (), fun _ => .ok (), fun _ => ()⟩ ()
      CompressionCodec.Zstd =
      .error "zstd streaming decompression requires feature `compression-zstd`") ∧
    (StreamDecompressor.with_codec ⟨false, false⟩
      ⟨fun _ _ => .ok (), fun _ => (), fun _ => .ok (), fun _ => ()⟩ ()
      CompressionCodec.Lz4 =
      .error "lz4 streaming decompression requires feature `compression-lz4`") := by
  have h := C8_codec_selection (W := Unit) (R := Unit) ⟨false, false⟩
    ⟨fun _ _ => .ok (), fun _ => (), fun _ => .ok (), fun _ => ()⟩
    ⟨fun _ _ => .ok (), fun _ => (), fun _ => .ok (), fun _ => ()⟩ () ()
    CompressionLevel.Default
  exact ⟨h.1, h.2.1 rfl, h.2.2.1 rfl, h.2.2.2.1, h.2.2.2.2.1 rfl, h.2.2.2.2.2 rfl⟩

/-- The loop of stream_compress accumulates exactly the number of bytes it
read from the source, modulo 2 to the 64, whenever it returns successfully. -/
theorem scLoop_ok_total {σ : Type} (write_all : σ → List Nat → Except String σ)
    (buffer_size : Nat) (hbs : 0 < buffer_size) :
    ∀ (N : Nat) (remaining : List Nat), remaining.length ≤ N →
      ∀ (st st2 : σ) (total t : Nat), total < 2 ^ 64 →
        scLoop write_all buffer_size st remaining total = .ok (st2, t) →
        t = (total + remaining.length) % 2 ^ 64 := by
  intro N
  induction N with
  | zero =>
    intro remaining hle st st2 total t hlt heq
    have hnil : remaining = [] := List.eq_nil_of_length_eq_zero (Nat.le_zero.mp hle)
    subst hnil
    rw [scLoop, dif_pos List.take_nil] at heq
    cases heq
    simp only [List.length_nil, Nat.add_zero]
    omega
  | succ N ih =>
    intro remaining hle st st2 total t hlt heq
    rw [scLoop] at heq
    by_cases hc : remaining.take buffer_size = []
    · rw [dif_pos hc] at heq
      cases heq
      have hnil : remaining = [] := by
        cases remaining with
        | nil => rfl
        | cons a l =>
          exfalso
          cases buffer_size with
          | zero => exact absurd rfl (Nat.pos_iff_ne_zero.mp hbs)
          | succ m => exact List.noConfusion hc
      subst hnil
      simp only [List.length_nil, Nat.add_zero]
      omega
    · rw [dif_neg hc] at heq
      cases hw : write_all st (remaining.take buffer_size) with
      | error e =>
        rw [hw] at heq
        exact Except.noConfusion heq
      | ok st1 =>
        rw [hw] at heq
        have hrem : remaining ≠ [] := by
          intro h0
          exact hc (by rw [h0]; exact List.take_nil)
        have hpos : 0 < remaining.length := List.length_pos.mpr hrem
        have hlen2 : (remaining.drop buffer_size).length ≤ N := by
          simp only [List.length_drop]
          omega
        have ht := ih (remaining.drop buffer_size) hlen2 st1 st2
          ((total + (remaining.take buffer_size).length) % 2 ^ 64) t
          (Nat.mod_lt _ (by norm_num)) heq
        have h1 : (remaining.take buffer_size).length = min buffer_size remaining.length :=
          List.length_take _ _
        have h2 : (remaining.drop buffer_size).length = remaining.length - buffer_size :=
          List.length_drop _ _
        rw [h1, h2] at ht
        omega

/-- Claim C10: whenever stream_compress succeeds it returns the number of
bytes read from the reader (the uncompressed input size), for every
abstract compressor behavior, so the count is independent of the codec and
is not the number of compressed bytes written. -/
theorem C10_stream_compress_returns_bytes_read {σ W : Type} (mk : Except String σ)
    (write_all : σ → List Nat → Except String σ) (finish : σ → Except String W)
    (input : List Nat) (buffer_size n : Nat)
    (hbs : 0 < buffer_size) (hlen : input.length < 2 ^ 64)
    (hok : stream_compress mk write_all finish input buffer_size = .ok n) :
    n = input.length := by
  unfold stream_compress at hok
  cases mk with
  | error e => exact Except.noConfusion hok
  | ok c0 =>
    cases hsc : scLoop write_all buffer_size c0 input 0 with
    | error e =>
      simp only [hsc] at hok
      exact Except.noConfusion hok
    | ok p =>
      obtain ⟨c1, total⟩ := p
      simp only [hsc] at hok
      cases hf : finish c1 with
      | error e =>
        simp only [hf] at hok
        exact Except.noConfusion hok
      | ok w =>
        simp only [hf] at hok
        have hn : n = total := (Except.ok.inj hok).symm
        have ht := scLoop_ok_total write_all buffer_size hbs input.length input le_rfl
          c0 c1 0 total (by norm_num) hsc
        rw [hn, ht, Nat.zero_add, Nat.mod_eq_of_lt hlen]

theorem C10_stream_compress_returns_bytes_read_witness :
    (3 : Nat) = List.length [7, 8, 9] :=
  C10_stream_compress_returns_bytes_read (σ := Unit) (W := Unit) (.ok ())
    (fun _ _ => .ok ()) (fun _ => .ok ()) [7, 8, 9] 2 3
    (by decide) (by decide) (by simp [stream_compress, scLoop])
